import Mathlib

/-!
Verification of the conversation-log tailing and session-orchestration engine
(`main.js` of the Git Watcher Electron app).  The definitions below are a
shallow embedding of the JavaScript source: the mutable module-level state
becomes an explicit `EngineState`, timers become records carrying an absolute
expiry instant, and the side effects (HTTP posts to the session API, renderer
logs, command execution) become an explicit `Effect` / action trace.
-/

namespace GitWatcher

/-- JS `a || b` for an optional string: `undefined`/`null` and the empty
string are falsy, any other string is returned unchanged. -/
def jsOrS (o : Option String) (d : String) : String :=
  match o with
  | none => d
  | some s => if s = "" then d else s

/-- JS truthiness of an optional string field (`if (x)`). -/
def jsTruthyOpt (o : Option String) : Bool :=
  match o with
  | none => false
  | some s => s ≠ ""

/-- Characters `String.prototype.trim` strips, for the ASCII payloads
handled here. -/
def isWsChar (c : Char) : Bool :=
  c = ' ' ∨ c = '\t' ∨ c = '\n' ∨ c = '\r'

/-- `line.trim()`: strip leading and trailing whitespace. -/
def jsTrim (s : String) : String :=
  ⟨((s.data.dropWhile isWsChar).reverse.dropWhile isWsChar).reverse⟩

/-- `cwd.replace(/\\/g, '/')`: replace every backslash with a slash (the
pattern is a single character, so a char-wise map is the replacement). -/
def replaceBSAux : List Char → List Char
  | [] => []
  | c :: rest => (if c = '\\' then '/' else c) :: replaceBSAux rest

def replaceBS (s : String) : String :=
  ⟨replaceBSAux s.data⟩

/-- The fields of one parsed JSONL record that `processLine` reads:
`lineData.cwd`, `lineData.message?.role`, `lineData.message?.id || ''`,
`lineData.message?.content`, and `"toolUseResult" in lineData`. -/
inductive ContentItem where
  | textItem (s : String)
  | strItem (s : String)
  | otherItem
deriving DecidableEq, Repr

/-- The shape of `lineData.message?.content` as the code discriminates it:
a plain string, an array of items, some other object, or absent. -/
inductive MsgContent where
  | str (s : String)
  | arr (items : List ContentItem)
  | objOther
  | absent
deriving DecidableEq, Repr

structure JsonLine where
  cwd : Option String
  role : Option String
  msgId : String
  content : MsgContent
  hasToolUseResult : Bool
deriving DecidableEq, Repr

/-- One raw line of a watched file: the raw text (used for the
`line && line.trim()` check) and its JSON parse result (`none` = parse
error, caught and logged by `processLine`). -/
structure SrcLine where
  raw : String
  json : Option JsonLine
deriving DecidableEq, Repr

/-- `line && line.trim()`: a line is handed to `processLine` iff its trim is
nonempty (a nonempty trim implies the line itself is nonempty). -/
def nonBlank (l : SrcLine) : Bool :=
  jsTrim l.raw ≠ ""

/-- `getNormalizedLines`: the split already happened; the code pops one
trailing empty line (`lines[lines.length-1] === ''`). -/
def getNormalizedLines (lines : List SrcLine) : List SrcLine :=
  match lines.getLast? with
  | some l => if l.raw = "" then lines.dropLast else lines
  | none => lines

/-- Extraction of the assistant text from `message.content`
(`content || {}`; unwrap a singleton array; accept a string or a
`{type:'text', text}` object; anything else yields `''`). -/
def extractMessageText : MsgContent → String
  | .str s => s
  | .arr [item] =>
    match item with
    | .textItem s => s
    | .strItem s => s
    | .otherItem => ""
  | .arr _ => ""
  | .objOther => ""
  | .absent => ""

/-- `lineData.message?.content || "Empty Message, ignore"`: absent content
and the empty string are falsy; arrays and objects are truthy. -/
def promptOf : MsgContent → MsgContent
  | .absent => .str "Empty Message, ignore"
  | .str s => if s = "" then .str "Empty Message, ignore" else .str s
  | c => c

/-- Association-list lookup (JS object property read). -/
def alookup {α : Type} (k : String) : List (String × α) → Option α
  | [] => none
  | kv :: rest => if kv.1 = k then some kv.2 else alookup k rest

/-- Association-list deletion (JS `delete obj[k]`). -/
def aerase {α : Type} (k : String) : List (String × α) → List (String × α)
  | [] => []
  | kv :: rest => if kv.1 = k then aerase k rest else kv :: aerase k rest

/-- Association-list write (JS `obj[k] = v`; keeps the key's position). -/
def aset {α : Type} (k : String) (v : α) : List (String × α) → List (String × α)
  | [] => [(k, v)]
  | kv :: rest => if kv.1 = k then (kv.1, v) :: rest else kv :: aset k v rest

/-- Per-file tailing state (`fileStates[path]`). -/
structure FileState where
  lastSize : Nat
  processedLineCount : Nat
deriving DecidableEq, Repr

/-- One entry of `pendingAssistantResponses`.  `timer` is the handle of the
armed `setTimeout` (if any); `content` is the seeded text. -/
structure Pending where
  timer : Option Nat
  content : String
  cwd : String
  sourcePath : String
  startedAt : Nat
deriving DecidableEq, Repr

/-- A scheduled `setTimeout(finalizeAssistant(messageId), 10_000)`:
identified by its handle, firing `finalizeAssistant` at `expiry`. -/
structure TimerRec where
  id : Nat
  messageId : String
  expiry : Nat
deriving DecidableEq, Repr

/-- The module-level mutable state of `main.js`. -/
structure EngineState where
  watcherActive : Bool
  sessionStarted : Bool
  sessionId : String
  currentCwd : String
  activeFile : Option String
  lastActivityCounter : Nat
  changeCycleCounter : Nat
  pending : List (String × Pending)
  timers : List TimerRec
  nextTimerId : Nat
  fileStates : List (String × FileState)
deriving DecidableEq, Repr

/-- Observable side effects: HTTP posts to the session API (with the exact
payload fields posted), renderer log/diagnostic events. -/
inductive Effect where
  | startConvo (prompt : MsgContent) (cwd : String)
  | endConvo (sid : String) (finalOut : String) (cwd : String)
  | rotationDiag (path : String)
  | ignoredChange (path : String)
  | removedPending (messageId : String)
  | skippedFakeUser
  | waiting (messageId : String)
  | waitingCleared (messageId : String)
  | parseError
  | processedBatch (path : String) (n : Nat)
  | statusStopped
deriving DecidableEq, Repr

def isStartConvo : Effect → Bool
  | .startConvo _ _ => true
  | _ => false

def isEndConvo : Effect → Bool
  | .endConvo _ _ _ => true
  | _ => false

/-- `scheduleAssistantFinalize(messageId)`: if a pending entry exists, clear
its old timer (if any) and arm a fresh 10-second timer. -/
def scheduleAssistantFinalize (now : Nat) (messageId : String) (s : EngineState) :
    EngineState × List Effect :=
  match alookup messageId s.pending with
  | none => (s, [])
  | some p =>
    let timers :=
      match p.timer with
      | some h => s.timers.filter (fun tr => tr.id ≠ h)
      | none => s.timers
    let tid := s.nextTimerId
    ({ s with
        timers := timers ++ [⟨tid, messageId, now + 10⟩],
        pending := aset messageId { p with timer := some tid } s.pending,
        nextTimerId := tid + 1 },
     [Effect.waiting messageId])

/-- `finalizeAssistant(messageId, reason)`: clear the entry's timer, post the
end-of-session report iff accumulated content is nonempty (using the GLOBAL
`sessionId` and `currentCwd`), delete the entry, reset the session. -/
def finalizeAssistant (messageId : String) (s : EngineState) :
    EngineState × List Effect :=
  match alookup messageId s.pending with
  | none => (s, [])
  | some p =>
    let timers :=
      match p.timer with
      | some h => s.timers.filter (fun tr => tr.id ≠ h)
      | none => s.timers
    let effs :=
      if p.content ≠ "" then
        [Effect.endConvo s.sessionId p.content (replaceBS s.currentCwd)]
      else []
    ({ s with
        timers := timers,
        pending := aerase messageId s.pending,
        sessionStarted := false,
        activeFile := none },
     effs ++ [Effect.waitingCleared messageId])

/-- Lines 380–384: a messageId already in the pending map is deleted outright
(its timer is NOT cleared — the `setTimeout` stays scheduled). -/
def deletePendingIfSeen (messageId : String) (s : EngineState) :
    EngineState × List Effect :=
  if messageId ≠ "" ∧ (alookup messageId s.pending).isSome then
    ({ s with pending := aerase messageId s.pending },
     [Effect.removedPending messageId])
  else (s, [])

/-- The `role === "user" && !sessionStarted` branch of `processLine`. -/
def handleUserRecord (ld : JsonLine) (cwd : String) (sourcePath : String)
    (newLinesCount : Nat) (s : EngineState) : EngineState × List Effect :=
  if ld.hasToolUseResult then (s, [])
  else if 2 < newLinesCount then (s, [Effect.skippedFakeUser])
  else
    ({ s with
        sessionStarted := true,
        activeFile := if sourcePath = "" then none else some sourcePath },
     [Effect.startConvo (promptOf ld.content) (replaceBS cwd)])

/-- The `role === "assistant"` branch of `processLine` (the state passed in
already has `currentCwd` set to this line's cwd). -/
def handleAssistantRecord (now : Nat) (ld : JsonLine) (sourcePath : String)
    (s : EngineState) : EngineState × List Effect :=
  let messageText := extractMessageText ld.content
  if ld.msgId = "" then
    if messageText ≠ "" then
      ({ s with sessionStarted := false, activeFile := none },
       [Effect.endConvo s.sessionId messageText (replaceBS s.currentCwd)])
    else (s, [])
  else if messageText = "" then (s, [])
  else
    let s1 :=
      if (alookup ld.msgId s.pending).isNone then
        { s with pending :=
            (ld.msgId,
             { timer := none, content := messageText, cwd := s.currentCwd,
               sourcePath := sourcePath, startedAt := now }) :: s.pending }
      else s
    scheduleAssistantFinalize now ld.msgId s1

/-- `processLine(line, sourcePath, newLinesCount)` on an already-parsed line. -/
def processLine (now : Nat) (ld : JsonLine) (sourcePath : String)
    (newLinesCount : Nat) (s : EngineState) : EngineState × List Effect :=
  let cwd := jsOrS ld.cwd "None"
  let s1 := { s with currentCwd := cwd }
  let r := deletePendingIfSeen ld.msgId s1
  let s2 := r.1
  if s2.sessionStarted = true ∧ s2.activeFile.isSome = true ∧ sourcePath ≠ "" ∧
      s2.activeFile ≠ some sourcePath then
    (s2, r.2)
  else if ld.role = some "user" ∧ s2.sessionStarted = false then
    let r2 := handleUserRecord ld cwd sourcePath newLinesCount s2
    (r2.1, r.2 ++ r2.2)
  else if ld.role = some "assistant" then
    let r2 := handleAssistantRecord now ld sourcePath s2
    (r2.1, r.2 ++ r2.2)
  else (s2, r.2)

/-- A `chokidar` change event: the path, its byte size at the subsequent
`statSync`, the split file content at the subsequent read, and the
`.jsonl` directory listing `scanForNewFiles` would observe (each new path
with the `FileState` its stat/read would initialize). -/
structure ChangeEvent where
  path : String
  size : Nat
  content : List SrcLine
  found : List (String × FileState)
deriving DecidableEq, Repr

/-- `scanForNewFiles`: register each discovered file not already tracked. -/
def scanForNewFiles (found : List (String × FileState))
    (fs : List (String × FileState)) : List (String × FileState) :=
  match found with
  | [] => fs
  | kv :: rest =>
    scanForNewFiles rest (if (alookup kv.1 fs).isSome then fs else fs ++ [kv])

/-- The `if (changeCycleCounter % 3 === 0) scanForNewFiles()` step. -/
def maybeScan (ev : ChangeEvent) (s : EngineState) : EngineState :=
  if s.changeCycleCounter % 3 = 0 then
    { s with fileStates := scanForNewFiles ev.found s.fileStates }
  else s

/-- The per-line loop of the change handler: for each new line, bump
`lastActivityCounter` and run `processLine` when `line && line.trim()`;
a JSON parse failure is caught and logged. -/
def processBatch (now : Nat) (sourcePath : String) (newLinesCount : Nat)
    (lines : List SrcLine) (s : EngineState) : EngineState × List Effect :=
  match lines with
  | [] => (s, [])
  | l :: rest =>
    let r1 :=
      if nonBlank l then
        let s0 := { s with lastActivityCounter := s.lastActivityCounter + 1 }
        match l.json with
        | some j => processLine now j sourcePath newLinesCount s0
        | none => (s0, [Effect.parseError])
      else (s, [])
    let r2 := processBatch now sourcePath newLinesCount rest r1.1
    (r2.1, r1.2 ++ r2.2)

/-- The `fileWatcher.on('change', ...)` handler. -/
def handleChange (now : Nat) (ev : ChangeEvent) (s : EngineState) :
    EngineState × List Effect :=
  let s := { s with changeCycleCounter := s.changeCycleCounter + 1 }
  if s.sessionStarted = true ∧ s.activeFile.isSome = true ∧
      s.activeFile ≠ some ev.path then
    (maybeScan ev s, [Effect.ignoredChange ev.path])
  else
    let prev := (alookup ev.path s.fileStates).getD ⟨0, 0⟩
    if ev.size ≠ prev.lastSize then
      let allLines := getNormalizedLines ev.content
      if allLines.length < prev.processedLineCount ∨ ev.size < prev.lastSize then
        -- truncation/rotation: reset and RETURN (no line processing, no scan)
        ({ s with fileStates := aset ev.path ⟨ev.size, allLines.length⟩ s.fileStates },
         [Effect.rotationDiag ev.path])
      else
        let newLinesCount := allLines.length - prev.processedLineCount
        let rB :=
          if 0 < newLinesCount then
            let r := processBatch now ev.path newLinesCount
              (allLines.drop prev.processedLineCount) s
            (r.1, r.2 ++ [Effect.processedBatch ev.path newLinesCount])
          else (s, ([] : List Effect))
        let s2 := { rB.1 with
          fileStates := aset ev.path ⟨ev.size, allLines.length⟩ rB.1.fileStates }
        (maybeScan ev s2, rB.2)
    else (maybeScan ev s, [])

/-- The `stop-watching` IPC handler: close the watcher and reset the session
fields.  It does NOT touch `pendingAssistantResponses` or their timers. -/
def stopWatching (s : EngineState) : EngineState × List Effect :=
  ({ s with
      watcherActive := false,
      sessionStarted := false,
      sessionId := "",
      activeFile := none },
   [Effect.statusStopped])

/-- Events the engine reacts to: a file-change notification, a `setTimeout`
expiry (carrying the timer handle), the stop-watching IPC call, and the
asynchronous `/session/start` HTTP response delivering the session id. -/
inductive Event where
  | change (ev : ChangeEvent)
  | timerFire (h : Nat)
  | stop
  | startResponse (sid : String)
deriving DecidableEq, Repr

/-- One step at instant `t`.  A change event is delivered only while the
watcher is active; a timer fires only if the handle is still scheduled and
`t` is its expiry (cancelled/superseded timers never fire). -/
def step (s : EngineState) (t : Nat) (e : Event) : EngineState × List Effect :=
  match e with
  | .change ev => if s.watcherActive then handleChange t ev s else (s, [])
  | .timerFire h =>
    match s.timers.find? (fun tr => tr.id = h) with
    | some tr =>
      if tr.expiry = t then
        finalizeAssistant tr.messageId
          { s with timers := s.timers.filter (fun tr2 => tr2.id ≠ h) }
      else (s, [])
    | none => (s, [])
  | .stop => stopWatching s
  | .startResponse sid => ({ s with sessionId := sid }, [])

/-- Run a timed event trace, collecting timestamped effects. -/
def run (s : EngineState) : List (Nat × Event) → EngineState × List (Nat × Effect)
  | [] => (s, [])
  | (t, e) :: rest =>
    let r := step s t e
    let r2 := run r.1 rest
    (r2.1, r.2.map (fun eff => (t, eff)) ++ r2.2)

/-- State right after `start-watching` succeeded: watcher up, no session,
`fileStates` seeded with the initial scan (existing content pre-counted). -/
def initState (seeded : List (String × FileState)) : EngineState :=
  { watcherActive := true, sessionStarted := false, sessionId := "",
    currentCwd := "", activeFile := none, lastActivityCounter := 0,
    changeCycleCounter := 0, pending := [], timers := [], nextTimerId := 0,
    fileStates := seeded }

/-- The end-of-session reports in a timestamped effect trace. -/
def endConvos (effs : List (Nat × Effect)) : List (Nat × Effect) :=
  effs.filter (fun te => isEndConvo te.2)

/-! ## RemoteExecutionClient (`startGitOperations`) and CommandRunner -/

/-- Messages the client sends over the WebSocket. -/
inductive ClientMsg where
  | authenticate (token : String)
  | sessionFinished (sid : String)
  | commandExecuted (output : String)
deriving DecidableEq, Repr

/-- Actions the WebSocket callbacks perform. -/
inductive WsAction where
  | send (m : ClientMsg)
  | close
  | execute (cmd : String) (cwd : String)
  | logErr
deriving DecidableEq, Repr

/-- The observable steps of `startGitOperations`: the unconditional
`new WebSocket(wsUrl)` connection attempt, then the `open` callback. -/
inductive GitOpStep where
  | connect
  | action (a : WsAction)
deriving DecidableEq, Repr

/-- The `ws.on('open', ...)` callback: only here is the token checked;
without one the client logs an error and closes, otherwise its first and
only message at open is `authenticate`. -/
def startGitOpsOpen : Option String → List WsAction
  | none => [.logErr, .close]
  | some tok => if tok = "" then [.logErr, .close] else [.send (.authenticate tok)]

/-- `startGitOperations(sessionId, cwd)` up to the open callback: the
connection is attempted before any credential check. -/
def startGitOpsTrace (authToken : Option String) : List GitOpStep :=
  GitOpStep.connect :: (startGitOpsOpen authToken).map GitOpStep.action

/-- A server frame as the `ws.on('message', ...)` handler discriminates it:
by `message_type`, `error`, and `command` fields. -/
structure ServerMsg where
  message_type : Option String
  error : Option String
  command : Option String
deriving DecidableEq, Repr

/-- The `ws.on('message', ...)` dispatch.  Note it keeps no authentication
flag: every frame is dispatched the same way whether or not `auth_success`
was ever received. -/
def onWsMessage (sessionId : String) (cwd : String) (m : ServerMsg) :
    List WsAction :=
  if m.message_type = some "auth_success" then
    [.send (.sessionFinished sessionId)]
  else if jsTruthyOpt m.error then
    [.logErr, .close]
  else if m.message_type = some "session_finished" then
    [.close]
  else if m.message_type = some "execute_command" then
    let cmd := jsOrS m.command ""
    if cmd = "" then [.send (.commandExecuted "")]
    else [.execute cmd cwd]
  else []

/-- Outcome of `spawn(cmd, [], {shell:true, ...})`: either the process runs
(its stdout/stderr data chunks arrive in delivery order, then `close`
fires once), or spawning fails with an error message — in which case the
child's `error` event fires and, per Node's child_process semantics,
`close` STILL fires afterwards (no process ran, so no data chunks
accumulated). -/
inductive SpawnOutcome where
  | exit (chunks : List String)
  | spawnError (emsg : String)
deriving DecidableEq, Repr

/-- The `command_executed` replies the two child-process callbacks send for
one spawned command.  Both `child.on('close')` and `child.on('error')` do
their own `ws.send` with no guard flag: a normal exit replies once with
the combined output from `close`; a failed spawn replies from the `error`
handler with the descriptive error text AND then again from the
still-firing `close` handler with the accumulated output, which is empty
because no data event ever ran. -/
def commandReplies : SpawnOutcome → List ClientMsg
  | .exit chunks => [.commandExecuted (String.join chunks)]
  | .spawnError e =>
    [.commandExecuted ("Command execution error: " ++ e), .commandExecuted ""]

/-- `cwd: cwd || undefined` in the spawn options. -/
def spawnCwdOf (cwd : String) : Option String :=
  if cwd = "" then none else some cwd

/-- The client messages ultimately sent for one server frame, resolving an
`execute` action through the spawn outcome. -/
def actionSends (outcome : SpawnOutcome) : WsAction → List ClientMsg
  | .send msg => [msg]
  | .execute _ _ => commandReplies outcome
  | _ => []

def wsSends (sid cwd : String) (m : ServerMsg) (outcome : SpawnOutcome) :
    List ClientMsg :=
  (onWsMessage sid cwd m).flatMap (actionSends outcome)

def isCommandExecuted : ClientMsg → Bool
  | .commandExecuted _ => true
  | _ => false

/-! ## Structural lemmas about the embedding -/

theorem processLine_fileStates (now : Nat) (ld : JsonLine) (sp : String) (n : Nat)
    (s : EngineState) : (processLine now ld sp n s).1.fileStates = s.fileStates := by
  simp only [processLine, deletePendingIfSeen, handleUserRecord,
    handleAssistantRecord, scheduleAssistantFinalize]
  repeat' first | rfl | split

theorem processLine_counter (now : Nat) (ld : JsonLine) (sp : String) (n : Nat)
    (s : EngineState) :
    (processLine now ld sp n s).1.lastActivityCounter = s.lastActivityCounter := by
  simp only [processLine, deletePendingIfSeen, handleUserRecord,
    handleAssistantRecord, scheduleAssistantFinalize]
  repeat' first | rfl | split

theorem processLine_currentCwd (now : Nat) (ld : JsonLine) (sp : String) (n : Nat)
    (s : EngineState) :
    (processLine now ld sp n s).1.currentCwd = jsOrS ld.cwd "None" := by
  simp only [processLine, deletePendingIfSeen, handleUserRecord,
    handleAssistantRecord, scheduleAssistantFinalize]
  repeat' first | rfl | split

theorem dpis_sessionStarted (mid : String) (s : EngineState) :
    (deletePendingIfSeen mid s).1.sessionStarted = s.sessionStarted := by
  unfold deletePendingIfSeen; split <;> rfl

theorem dpis_activeFile (mid : String) (s : EngineState) :
    (deletePendingIfSeen mid s).1.activeFile = s.activeFile := by
  unfold deletePendingIfSeen; split <;> rfl

theorem dpis_currentCwd (mid : String) (s : EngineState) :
    (deletePendingIfSeen mid s).1.currentCwd = s.currentCwd := by
  unfold deletePendingIfSeen; split <;> rfl

theorem dpis_effects (mid : String) (s : EngineState) :
    (deletePendingIfSeen mid s).2 = [] ∨
      (deletePendingIfSeen mid s).2 = [Effect.removedPending mid] := by
  unfold deletePendingIfSeen; split
  · exact Or.inr rfl
  · exact Or.inl rfl

theorem saf_effects (now : Nat) (mid : String) (s : EngineState) :
    (scheduleAssistantFinalize now mid s).2 = [] ∨
      (scheduleAssistantFinalize now mid s).2 = [Effect.waiting mid] := by
  unfold scheduleAssistantFinalize
  cases alookup mid s.pending
  · exact Or.inl rfl
  · exact Or.inr rfl

theorem saf_sessionStarted (now : Nat) (mid : String) (s : EngineState) :
    (scheduleAssistantFinalize now mid s).1.sessionStarted = s.sessionStarted := by
  unfold scheduleAssistantFinalize
  cases alookup mid s.pending <;> rfl

theorem hur_effects (ld : JsonLine) (cwd sp : String) (n : Nat) (s : EngineState) :
    (handleUserRecord ld cwd sp n s).2 = [] ∨
      (handleUserRecord ld cwd sp n s).2 = [Effect.skippedFakeUser] ∨
      ((handleUserRecord ld cwd sp n s).2 =
          [Effect.startConvo (promptOf ld.content) (replaceBS cwd)] ∧
        ld.hasToolUseResult = false ∧ n ≤ 2) := by
  unfold handleUserRecord
  split
  · exact Or.inl rfl
  · split
    · exact Or.inr (Or.inl rfl)
    · refine Or.inr (Or.inr ⟨rfl, ?_, by omega⟩)
      simp_all

theorem hur_sessionStarted_true (ld : JsonLine) (cwd sp : String) (n : Nat)
    (s : EngineState)
    (h : (handleUserRecord ld cwd sp n s).1.sessionStarted = true) :
    s.sessionStarted = true ∨ (ld.hasToolUseResult = false ∧ n ≤ 2) := by
  unfold handleUserRecord at h
  split at h
  · exact Or.inl h
  · split at h
    · exact Or.inl h
    · refine Or.inr ⟨by simp_all, by omega⟩

theorem har_effects (now : Nat) (ld : JsonLine) (sp : String) (s : EngineState) :
    ∀ e ∈ (handleAssistantRecord now ld sp s).2,
      e = Effect.endConvo s.sessionId (extractMessageText ld.content)
            (replaceBS s.currentCwd) ∨
      e = Effect.waiting ld.msgId := by
  unfold handleAssistantRecord
  dsimp only
  split
  · split
    · intro e he; simp_all
    · intro e he; simp_all
  · split
    · intro e he; simp_all
    · split
      · intro e he
        rcases saf_effects now ld.msgId _ with h2 | h2 <;> rw [h2] at he <;> simp_all
      · intro e he
        rcases saf_effects now ld.msgId _ with h2 | h2 <;> rw [h2] at he <;> simp_all

theorem har_sessionStarted_true (now : Nat) (ld : JsonLine) (sp : String)
    (s : EngineState)
    (h : (handleAssistantRecord now ld sp s).1.sessionStarted = true) :
    s.sessionStarted = true := by
  unfold handleAssistantRecord at h
  dsimp only at h
  split at h
  · split at h
    · simp_all
    · exact h
  · split at h
    · exact h
    · split at h <;> rw [saf_sessionStarted] at h <;> exact h

theorem processLine_startConvo_mem (now : Nat) (ld : JsonLine) (sp : String) (n : Nat)
    (s : EngineState) (p : MsgContent) (c : String)
    (h : Effect.startConvo p c ∈ (processLine now ld sp n s).2) :
    c = replaceBS (jsOrS ld.cwd "None") ∧ ld.role = some "user" ∧
      s.sessionStarted = false ∧ ld.hasToolUseResult = false ∧ n ≤ 2 := by
  unfold processLine at h
  dsimp only at h
  split at h
  · rcases dpis_effects ld.msgId _ with h2 | h2 <;> rw [h2] at h <;> simp_all
  · split at h
    · rename_i hcond
      rw [List.mem_append] at h
      rcases h with h | h
      · rcases dpis_effects ld.msgId _ with h2 | h2 <;> rw [h2] at h <;> simp_all
      · rcases hur_effects ld (jsOrS ld.cwd "None") sp n _ with h2 | h2 | ⟨h2, h3, h4⟩ <;>
          rw [h2] at h
        · simp_all
        · simp_all
        · rw [dpis_sessionStarted] at hcond
          simp only [List.mem_singleton, Effect.startConvo.injEq] at h
          exact ⟨h.2, hcond.1, by simpa using hcond.2, h3, h4⟩
    · split at h
      · rw [List.mem_append] at h
        rcases h with h | h
        · rcases dpis_effects ld.msgId _ with h2 | h2 <;> rw [h2] at h <;> simp_all
        · have := har_effects now ld sp _ _ h
          rcases this with h2 | h2 <;> simp_all
      · rcases dpis_effects ld.msgId _ with h2 | h2 <;> rw [h2] at h <;> simp_all

theorem processLine_sessionStarted_true (now : Nat) (ld : JsonLine) (sp : String)
    (n : Nat) (s : EngineState)
    (h : (processLine now ld sp n s).1.sessionStarted = true) :
    s.sessionStarted = true ∨
      (ld.role = some "user" ∧ ld.hasToolUseResult = false ∧ n ≤ 2) := by
  unfold processLine at h
  dsimp only at h
  split at h
  · rw [dpis_sessionStarted] at h
    exact Or.inl (by simpa using h)
  · split at h
    · rename_i hcond
      rcases hur_sessionStarted_true ld (jsOrS ld.cwd "None") sp n _ h with h2 | h2
      · rw [dpis_sessionStarted] at h2
        exact Or.inl (by simpa using h2)
      · exact Or.inr ⟨hcond.1, h2.1, h2.2⟩
    · split at h
      · have h2 := har_sessionStarted_true now ld sp _ h
        rw [dpis_sessionStarted] at h2
        exact Or.inl (by simpa using h2)
      · rw [dpis_sessionStarted] at h
        exact Or.inl (by simpa using h)

theorem processLine_endConvo_mem (now : Nat) (ld : JsonLine) (sp : String) (n : Nat)
    (s : EngineState) (sid f c : String)
    (h : Effect.endConvo sid f c ∈ (processLine now ld sp n s).2) :
    c = replaceBS (jsOrS ld.cwd "None") := by
  unfold processLine at h
  dsimp only at h
  split at h
  · rcases dpis_effects ld.msgId _ with h2 | h2 <;> rw [h2] at h <;> simp_all
  · split at h
    · rw [List.mem_append] at h
      rcases h with h | h
      · rcases dpis_effects ld.msgId _ with h2 | h2 <;> rw [h2] at h <;> simp_all
      · rcases hur_effects ld (jsOrS ld.cwd "None") sp n _ with h2 | h2 | ⟨h2, h3, h4⟩ <;>
          rw [h2] at h <;> simp_all
    · split at h
      · rw [List.mem_append] at h
        rcases h with h | h
        · rcases dpis_effects ld.msgId _ with h2 | h2 <;> rw [h2] at h <;> simp_all
        · have h2 := har_effects now ld sp _ _ h
          rw [dpis_currentCwd] at h2
          rcases h2 with h2 | h2
          · simp only [Effect.endConvo.injEq] at h2
            simpa using h2.2.2
          · simp_all
      · rcases dpis_effects ld.msgId _ with h2 | h2 <;> rw [h2] at h <;> simp_all

theorem processLine_keeps_idle (now : Nat) (ld : JsonLine) (sp : String) (n : Nat)
    (s : EngineState) (hn : 2 < n) (hs : s.sessionStarted = false) :
    (processLine now ld sp n s).1.sessionStarted = false := by
  by_contra hc
  have h2 := processLine_sessionStarted_true now ld sp n s (by simpa using hc)
  rcases h2 with h2 | h2
  · rw [hs] at h2; exact Bool.false_ne_true h2
  · omega

theorem processBatch_fileStates (now : Nat) (sp : String) (n : Nat)
    (ls : List SrcLine) (s : EngineState) :
    (processBatch now sp n ls s).1.fileStates = s.fileStates := by
  induction ls generalizing s with
  | nil => rfl
  | cons l rest ih =>
    unfold processBatch
    dsimp only
    split
    · cases hj : l.json <;> dsimp only [hj] <;> rw [ih]
      rw [processLine_fileStates]
    · rw [ih]

theorem processBatch_counter (now : Nat) (sp : String) (n : Nat)
    (ls : List SrcLine) (s : EngineState) :
    (processBatch now sp n ls s).1.lastActivityCounter =
      s.lastActivityCounter + ls.countP nonBlank := by
  induction ls generalizing s with
  | nil => simp [processBatch]
  | cons l rest ih =>
    unfold processBatch
    dsimp only
    rw [List.countP_cons]
    split
    · rename_i hb
      cases hj : l.json <;> dsimp only [hj]
      · rw [ih]; simp only [hb, if_pos]; omega
      · rw [ih, processLine_counter]; simp only [hb, if_pos]; omega
    · rename_i hb
      rw [ih]
      simp only [Bool.not_eq_true] at hb
      simp [hb]

theorem processBatch_keeps_idle (now : Nat) (sp : String) (n : Nat)
    (ls : List SrcLine) (s : EngineState) (hn : 2 < n)
    (hs : s.sessionStarted = false) :
    (processBatch now sp n ls s).1.sessionStarted = false := by
  induction ls generalizing s with
  | nil => exact hs
  | cons l rest ih =>
    unfold processBatch
    dsimp only
    split
    · cases hj : l.json <;> dsimp only [hj]
      · exact ih _ hs
      · exact ih _ (processLine_keeps_idle now _ sp n _ hn hs)
    · exact ih _ hs

theorem processBatch_no_startConvo (now : Nat) (sp : String) (n : Nat)
    (ls : List SrcLine) (s : EngineState) (hn : 2 < n) :
    ∀ p c, Effect.startConvo p c ∉ (processBatch now sp n ls s).2 := by
  induction ls generalizing s with
  | nil => intro p c h; simp [processBatch] at h
  | cons l rest ih =>
    intro p c h
    unfold processBatch at h
    dsimp only at h
    rw [List.mem_append] at h
    split at h
    · rcases h with h | h
      · revert h
        cases hj : l.json <;> dsimp only [hj]
        · simp
        · intro h
          have := (processLine_startConvo_mem now _ sp n _ p c h).2.2.2.2
          omega
      · revert h
        cases hj : l.json <;> dsimp only [hj] <;> exact fun h => ih _ p c h
    · rcases h with h | h
      · simp at h
      · exact ih _ p c h

theorem maybeScan_fields (ev : ChangeEvent) (s : EngineState) :
    (maybeScan ev s).sessionStarted = s.sessionStarted ∧
    (maybeScan ev s).activeFile = s.activeFile ∧
    (maybeScan ev s).pending = s.pending ∧
    (maybeScan ev s).timers = s.timers ∧
    (maybeScan ev s).currentCwd = s.currentCwd ∧
    (maybeScan ev s).lastActivityCounter = s.lastActivityCounter := by
  unfold maybeScan
  split <;> exact ⟨rfl, rfl, rfl, rfl, rfl, rfl⟩

theorem maybeScan_counter (ev : ChangeEvent) (s : EngineState) :
    (maybeScan ev s).lastActivityCounter = s.lastActivityCounter := by
  unfold maybeScan; split <;> rfl

theorem alookup_aset {α : Type} (k : String) (v : α) (l : List (String × α)) :
    alookup k (aset k v l) = some v := by
  induction l with
  | nil => simp [aset, alookup]
  | cons hd tl ih =>
    unfold aset
    split
    · rename_i h; simp [alookup, h]
    · rename_i h; simpa [alookup, h] using ih

theorem alookup_append_left {α : Type} (k : String) (l1 l2 : List (String × α))
    (h : (alookup k l1).isSome) : alookup k (l1 ++ l2) = alookup k l1 := by
  induction l1 with
  | nil => simp [alookup] at h
  | cons hd tl ih =>
    simp only [List.cons_append, alookup] at h ⊢
    split at h
    · rename_i h2
      simp [h2]
    · rename_i h2
      simp only [h2, if_false]
      exact ih h

theorem alookup_scan (found fs : List (String × FileState)) (k : String)
    (h : (alookup k fs).isSome) :
    alookup k (scanForNewFiles found fs) = alookup k fs := by
  induction found generalizing fs with
  | nil => rfl
  | cons kv rest ih =>
    unfold scanForNewFiles
    split
    · exact ih fs h
    · rw [ih _ (by simpa [alookup_append_left k fs [kv] h] using h)]
      exact alookup_append_left k fs [kv] h

theorem alookup_maybeScan (ev : ChangeEvent) (k : String) (s : EngineState)
    (h : (alookup k s.fileStates).isSome) :
    alookup k (maybeScan ev s).fileStates = alookup k s.fileStates := by
  unfold maybeScan
  split
  · exact alookup_scan _ _ _ h
  · rfl

/-- The tailing state the change handler reads for the event's file
(`fileStates[changedPath] || { lastSize: 0, processedLineCount: 0 }`). -/
def fsPrev (ev : ChangeEvent) (s : EngineState) : FileState :=
  (alookup ev.path s.fileStates).getD ⟨0, 0⟩

/-- A well-formed `execute_command` frame with a nonempty command reaches the
spawn path (helper shared by several claims). -/
theorem onWsMessage_execute (sid cwd cmd : String) (hcmd : cmd ≠ "") :
    onWsMessage sid cwd ⟨some "execute_command", none, some cmd⟩ =
      [WsAction.execute cmd cwd] := by
  unfold onWsMessage
  rw [if_neg (by simp), if_neg (by simp [jsTruthyOpt]), if_neg (by simp),
    if_pos rfl]
  dsimp only
  rw [if_neg (by simpa [jsOrS, hcmd] using hcmd)]
  simp [jsOrS, hcmd]

/-! ## Claim theorems -/

/-- C3: a change-event batch that delivers 3 or more new lines while the
engine is Idle never starts a session: the engine is still Idle afterwards
and no session-start report is posted (a session can start only from a
batch of at most 2 new lines, by `processLine_startConvo_mem`). -/
theorem bigBatch_keeps_idle (now : Nat) (ev : ChangeEvent) (s : EngineState)
    (hidle : s.sessionStarted = false)
    (hread : ev.size ≠ (fsPrev ev s).lastSize)
    (hsize : (fsPrev ev s).lastSize ≤ ev.size)
    (hn : 2 < (getNormalizedLines ev.content).length -
      (fsPrev ev s).processedLineCount) :
    (handleChange now ev s).1.sessionStarted = false ∧
    ∀ p c, Effect.startConvo p c ∉ (handleChange now ev s).2 := by
  unfold handleChange
  dsimp only
  simp only [fsPrev] at hread hsize hn
  rw [if_neg (by simp [hidle])]
  rw [if_pos hread]
  rw [if_neg (by omega)]
  rw [if_pos (by omega)]
  constructor
  · rw [(maybeScan_fields _ _).1]
    exact processBatch_keeps_idle now ev.path _ _ _ hn (by simpa using hidle)
  · intro p c hmem
    rw [List.mem_append] at hmem
    rcases hmem with hmem | hmem
    · exact processBatch_no_startConvo now ev.path _ _ _ hn p c hmem
    · simp at hmem

/-- Concrete witness inputs: a three-line batch on a fresh file. -/
def wBatchEv : ChangeEvent := ⟨"f", 3, [⟨"u", none⟩, ⟨"u", none⟩, ⟨"u", none⟩], []⟩

/-- C3 witness: a 3-line batch on a fresh file from Idle stays Idle. -/
theorem bigBatch_keeps_idle_witness :
    ((initState []).sessionStarted = false ∧
      (wBatchEv.size ≠ (fsPrev wBatchEv (initState [])).lastSize) ∧
      (fsPrev wBatchEv (initState [])).lastSize ≤ wBatchEv.size ∧
      2 < (getNormalizedLines wBatchEv.content).length -
        (fsPrev wBatchEv (initState [])).processedLineCount) ∧
    ((handleChange 0 wBatchEv (initState [])).1.sessionStarted = false ∧
      ∀ p c, Effect.startConvo p c ∉ (handleChange 0 wBatchEv (initState [])).2) :=
  ⟨⟨by decide, by decide, by decide, by decide⟩,
   bigBatch_keeps_idle 0 wBatchEv (initState []) (by decide) (by decide)
     (by decide) (by decide)⟩

/-- C4: while a session is active and pinned to file `a`, a change event for
a different file leaves the session state, the pending map, the timers, the
cwd and the activity counter untouched, and emits only the ignore log — in
particular no SessionReporter call. -/
theorem activeSession_ignores_other_file (now : Nat) (ev : ChangeEvent)
    (s : EngineState) (a : String)
    (hact : s.sessionStarted = true) (hpin : s.activeFile = some a)
    (hne : ev.path ≠ a) :
    (handleChange now ev s).1.sessionStarted = s.sessionStarted ∧
    (handleChange now ev s).1.activeFile = s.activeFile ∧
    (handleChange now ev s).1.pending = s.pending ∧
    (handleChange now ev s).1.timers = s.timers ∧
    (handleChange now ev s).1.currentCwd = s.currentCwd ∧
    (handleChange now ev s).1.lastActivityCounter = s.lastActivityCounter ∧
    (handleChange now ev s).2 = [Effect.ignoredChange ev.path] := by
  unfold handleChange
  dsimp only
  rw [if_pos ⟨by simpa using hact, by simp [hpin], by simp [hpin, Ne.symm hne]⟩]
  have hm := maybeScan_fields ev { s with changeCycleCounter := s.changeCycleCounter + 1 }
  dsimp only at hm
  exact ⟨hm.1, hm.2.1, hm.2.2.1, hm.2.2.2.1, hm.2.2.2.2.1, hm.2.2.2.2.2, rfl⟩

/-- Concrete witness inputs: a session pinned to file "a". -/
def wPinnedState : EngineState :=
  { initState [] with sessionStarted := true, activeFile := some "a" }

def wOtherEv : ChangeEvent := ⟨"b", 5, [⟨"u", none⟩], []⟩

/-- C4 witness: session active on "a", change event on "b" is ignored. -/
theorem activeSession_ignores_other_file_witness :
    (wPinnedState.sessionStarted = true ∧
      wPinnedState.activeFile = some "a" ∧
      wOtherEv.path ≠ "a") ∧
    ((handleChange 0 wOtherEv wPinnedState).2 = [Effect.ignoredChange "b"]) :=
  ⟨⟨by decide, by decide, by decide⟩,
   (activeSession_ignores_other_file 0 wOtherEv wPinnedState "a"
     (by decide) (by decide) (by decide)).2.2.2.2.2.2⟩

/-- C5: a read that observes a byte-size regression, or a line-count
regression, resets the file's processed line count to the file's current
total line count, emits only the rotation diagnostic, and processes no
lines (pending map, timers, session state, activity counter unchanged). -/
theorem rotation_resets_processed_count (now : Nat) (ev : ChangeEvent)
    (s : EngineState)
    (hng : ¬(s.sessionStarted = true ∧ s.activeFile.isSome = true ∧
      s.activeFile ≠ some ev.path))
    (hrot : ev.size < (fsPrev ev s).lastSize ∨
      (ev.size ≠ (fsPrev ev s).lastSize ∧
        (getNormalizedLines ev.content).length < (fsPrev ev s).processedLineCount)) :
    alookup ev.path (handleChange now ev s).1.fileStates =
      some ⟨ev.size, (getNormalizedLines ev.content).length⟩ ∧
    (handleChange now ev s).2 = [Effect.rotationDiag ev.path] ∧
    (handleChange now ev s).1.pending = s.pending ∧
    (handleChange now ev s).1.timers = s.timers ∧
    (handleChange now ev s).1.sessionStarted = s.sessionStarted ∧
    (handleChange now ev s).1.lastActivityCounter = s.lastActivityCounter := by
  unfold handleChange
  dsimp only
  simp only [fsPrev] at hrot
  rw [if_neg (by simpa using hng)]
  rw [if_pos (by rcases hrot with h | h; exacts [by omega, h.1])]
  rw [if_pos (by rcases hrot with h | h; exacts [Or.inr h, Or.inl h.2])]
  exact ⟨alookup_aset _ _ _, rfl, rfl, rfl, rfl, rfl⟩

/-- Concrete witness inputs: a tracked file that shrank to one line. -/
def wRotState : EngineState := initState [("f", ⟨20, 2⟩)]

def wRotEv : ChangeEvent := ⟨"f", 5, [⟨"u", none⟩], []⟩

/-- C5 witness: a file known with 2 processed lines shrinks to 1 line. -/
theorem rotation_resets_processed_count_witness :
    ((¬(wRotState.sessionStarted = true ∧ wRotState.activeFile.isSome = true ∧
        wRotState.activeFile ≠ some wRotEv.path)) ∧
      (wRotEv.size < (fsPrev wRotEv wRotState).lastSize ∨
        (wRotEv.size ≠ (fsPrev wRotEv wRotState).lastSize ∧
          (getNormalizedLines wRotEv.content).length <
            (fsPrev wRotEv wRotState).processedLineCount))) ∧
    (alookup "f" (handleChange 0 wRotEv wRotState).1.fileStates =
      some ⟨5, (getNormalizedLines wRotEv.content).length⟩ ∧
      (handleChange 0 wRotEv wRotState).2 = [Effect.rotationDiag "f"]) :=
  ⟨⟨by decide, by decide⟩,
   ⟨(rotation_resets_processed_count 0 wRotEv wRotState (by decide) (by decide)).1,
    (rotation_resets_processed_count 0 wRotEv wRotState (by decide) (by decide)).2.1⟩⟩

/-- C6: on every read (size changed), the stored entry for the file becomes
`{lastSize = size at stat, processedLineCount = total line count at read}`;
the processed count can only decrease when the rotation diagnostic is
emitted; and absent rotation, the activity counter advances by exactly the
number of nonblank lines among the newly delivered suffix — each new line
visited exactly once, none twice, none skipped. -/
theorem processed_count_tracks_read (now : Nat) (ev : ChangeEvent)
    (s : EngineState)
    (hng : ¬(s.sessionStarted = true ∧ s.activeFile.isSome = true ∧
      s.activeFile ≠ some ev.path))
    (hread : ev.size ≠ (fsPrev ev s).lastSize) :
    alookup ev.path (handleChange now ev s).1.fileStates =
      some ⟨ev.size, (getNormalizedLines ev.content).length⟩ ∧
    ((fsPrev ev s).processedLineCount ≤ (getNormalizedLines ev.content).length ∨
      Effect.rotationDiag ev.path ∈ (handleChange now ev s).2) ∧
    (¬((getNormalizedLines ev.content).length < (fsPrev ev s).processedLineCount ∨
        ev.size < (fsPrev ev s).lastSize) →
      (handleChange now ev s).1.lastActivityCounter = s.lastActivityCounter +
        ((getNormalizedLines ev.content).drop
          (fsPrev ev s).processedLineCount).countP nonBlank) := by
  unfold handleChange
  dsimp only
  simp only [fsPrev] at hread ⊢
  rw [if_neg (by simpa using hng)]
  rw [if_pos hread]
  by_cases hrot : (getNormalizedLines ev.content).length <
      ((alookup ev.path s.fileStates).getD ⟨0, 0⟩).processedLineCount ∨
      ev.size < ((alookup ev.path s.fileStates).getD ⟨0, 0⟩).lastSize
  · rw [if_pos hrot]
    refine ⟨alookup_aset _ _ _, Or.inr (by simp), fun hc => absurd hrot hc⟩
  · rw [if_neg hrot]
    by_cases hpos : 0 < (getNormalizedLines ev.content).length -
        ((alookup ev.path s.fileStates).getD ⟨0, 0⟩).processedLineCount
    · rw [if_pos hpos]
      refine ⟨?_, Or.inl (by omega), fun _ => ?_⟩
      · rw [alookup_maybeScan]
        · exact alookup_aset _ _ _
        · dsimp only
          rw [alookup_aset]; rfl
      · rw [maybeScan_counter]
        dsimp only
        rw [processBatch_counter]
    · rw [if_neg hpos]
      refine ⟨?_, Or.inl (by omega), fun _ => ?_⟩
      · rw [alookup_maybeScan]
        · exact alookup_aset _ _ _
        · dsimp only
          rw [alookup_aset]; rfl
      · rw [maybeScan_counter]
        dsimp only
        have hdrop : (getNormalizedLines ev.content).drop
            ((alookup ev.path s.fileStates).getD ⟨0, 0⟩).processedLineCount = [] :=
          List.drop_eq_nil_of_le (by omega)
        rw [hdrop]
        simp

/-- Concrete witness inputs: one processed line, two new lines appended. -/
def wGrowState : EngineState := initState [("f", ⟨10, 1⟩)]

def wGrowEv : ChangeEvent := ⟨"f", 30, [⟨"u", none⟩, ⟨"u", none⟩, ⟨"u", none⟩], []⟩

/-- C6 witness: one processed line, two new nonblank lines appended. -/
theorem processed_count_tracks_read_witness :
    ((¬(wGrowState.sessionStarted = true ∧ wGrowState.activeFile.isSome = true ∧
        wGrowState.activeFile ≠ some wGrowEv.path)) ∧
      (wGrowEv.size ≠ (fsPrev wGrowEv wGrowState).lastSize)) ∧
    (alookup "f" (handleChange 0 wGrowEv wGrowState).1.fileStates =
      some ⟨30, (getNormalizedLines wGrowEv.content).length⟩) :=
  ⟨⟨by decide, by decide⟩,
   (processed_count_tracks_read 0 wGrowEv wGrowState (by decide) (by decide)).1⟩

/-- C7: a user record carrying `toolUseResult` never starts a session: from
Idle the engine stays Idle and no session-start report is posted, for every
payload. -/
theorem toolUseResult_never_starts_session (now : Nat) (ld : JsonLine)
    (sp : String) (n : Nat) (s : EngineState)
    (hidle : s.sessionStarted = false)
    (hrole : ld.role = some "user") (htool : ld.hasToolUseResult = true) :
    (processLine now ld sp n s).1.sessionStarted = false ∧
    ∀ p c, Effect.startConvo p c ∉ (processLine now ld sp n s).2 := by
  constructor
  · by_contra hc
    rcases processLine_sessionStarted_true now ld sp n s (by simpa using hc) with h | h
    · rw [hidle] at h; exact Bool.false_ne_true h
    · rw [htool] at h
      simpa using h.2.1
  · intro p c hmem
    have h := processLine_startConvo_mem now ld sp n s p c hmem
    rw [htool] at h
    simpa using h.2.2.2.1

/-- Concrete witness input: a tool-result user record. -/
def wToolLine : JsonLine := ⟨none, some "user", "", MsgContent.str "out", true⟩

/-- C7 witness: a tool-result user record arriving from Idle. -/
theorem toolUseResult_never_starts_session_witness :
    ((initState []).sessionStarted = false ∧
      wToolLine.role = some "user" ∧
      wToolLine.hasToolUseResult = true) ∧
    ((processLine 0 wToolLine "f" 1 (initState [])).1.sessionStarted = false ∧
      ∀ p c, Effect.startConvo p c ∉ (processLine 0 wToolLine "f" 1 (initState [])).2) :=
  ⟨⟨by decide, by decide, by decide⟩,
   toolUseResult_never_starts_session 0 wToolLine "f" 1 (initState [])
     (by decide) (by decide) (by decide)⟩

/-- C10: a line whose JSON lacks `cwd` sets the engine cwd to the literal
string "None"; any session start or end report emitted for such lines
posts the cwd "None"; a finalize from a state whose cwd is "None" posts
"None"; and "None" is what reaches the spawned command's working
directory (`cwd || undefined` keeps the truthy "None"). -/
theorem missing_cwd_literal_None (now : Nat) (ld : JsonLine) (sp : String)
    (n : Nat) (s : EngineState) (hcwd : ld.cwd = none) :
    (processLine now ld sp n s).1.currentCwd = "None" ∧
    (∀ p c, Effect.startConvo p c ∈ (processLine now ld sp n s).2 → c = "None") ∧
    (∀ sid f c, Effect.endConvo sid f c ∈ (processLine now ld sp n s).2 →
      c = "None") ∧
    (∀ s2 : EngineState, s2.currentCwd = "None" → ∀ mid sid f c,
      Effect.endConvo sid f c ∈ (finalizeAssistant mid s2).2 → c = "None") ∧
    (∀ sid cmd, cmd ≠ "" →
      onWsMessage sid "None" ⟨some "execute_command", none, some cmd⟩ =
        [WsAction.execute cmd "None"]) ∧
    spawnCwdOf "None" = some "None" := by
  have hNone : replaceBS "None" = "None" := by decide
  refine ⟨?_, ?_, ?_, ?_, ?_, by decide⟩
  · rw [processLine_currentCwd, hcwd]; rfl
  · intro p c hmem
    have h := (processLine_startConvo_mem now ld sp n s p c hmem).1
    rw [hcwd] at h
    simpa [jsOrS, hNone] using h
  · intro sid f c hmem
    have h := processLine_endConvo_mem now ld sp n s sid f c hmem
    rw [hcwd] at h
    simpa [jsOrS, hNone] using h
  · intro s2 hs2 mid sid f c hmem
    unfold finalizeAssistant at hmem
    cases halk : alookup mid s2.pending <;> rw [halk] at hmem
    · simp at hmem
    · dsimp only at hmem
      rw [List.mem_append] at hmem
      rcases hmem with hmem | hmem
      · split at hmem
        · simp only [List.mem_singleton, Effect.endConvo.injEq] at hmem
          rw [hmem.2.2, hs2, hNone]
        · simp at hmem
      · simp at hmem
  · intro sid cmd hcmd
    exact onWsMessage_execute sid "None" cmd hcmd

/-- Concrete witness input: a user line whose JSON lacks `cwd`. -/
def wNoCwdLine : JsonLine := ⟨none, some "user", "", MsgContent.str "hi", false⟩

/-- C10 witness: a cwd-less user line from Idle seeds currentCwd "None". -/
theorem missing_cwd_literal_None_witness :
    (wNoCwdLine.cwd = none) ∧
    ((processLine 0 wNoCwdLine "f" 1 (initState [])).1.currentCwd = "None" ∧
      spawnCwdOf "None" = some "None") :=
  ⟨by decide,
   ⟨(missing_cwd_literal_None 0 wNoCwdLine "f" 1 (initState []) (by decide)).1,
    (missing_cwd_literal_None 0 wNoCwdLine "f" 1 (initState []) (by decide)).2.2.2.2.2⟩⟩

/-- C9 counterexample: when the spawn of a nonempty command fails, BOTH
child-process callbacks run — `error` first, then the `close` event Node
still emits after a failed spawn — so the client sends TWO
`command_executed` frames for the one `execute_command` request, refuting
"replies with exactly one command_executed". -/
theorem spawn_failure_double_reply_counterexample :
    wsSends "s" "None" ⟨some "execute_command", none, some "echo hi"⟩
        (SpawnOutcome.spawnError "spawn ENOENT") =
      [ClientMsg.commandExecuted "Command execution error: spawn ENOENT",
       ClientMsg.commandExecuted ""] ∧
    (wsSends "s" "None" ⟨some "execute_command", none, some "echo hi"⟩
        (SpawnOutcome.spawnError "spawn ENOENT")).countP isCommandExecuted = 2 := by
  exact ⟨by decide, by decide⟩

/-- C9 amended: a well-formed `execute_command` frame with an empty command
is answered immediately with exactly one reply carrying empty output, and
one whose command spawns and exits is answered with exactly one reply
carrying the combined stdout+stderr; but a command whose spawn FAILS is
answered twice — the descriptive error string from the `error` handler,
followed by the empty accumulated output from the `close` handler, which
Node still fires after a failed spawn and which the code does not guard
against. -/
theorem execute_command_reply_per_outcome (sid cwd : String) (m : ServerMsg)
    (outcome : SpawnOutcome)
    (hmt : m.message_type = some "execute_command")
    (herr : jsTruthyOpt m.error = false) :
    (jsOrS m.command "" = "" →
      wsSends sid cwd m outcome = [ClientMsg.commandExecuted ""]) ∧
    (∀ chunks, outcome = SpawnOutcome.exit chunks → jsOrS m.command "" ≠ "" →
      wsSends sid cwd m outcome = [ClientMsg.commandExecuted (String.join chunks)]) ∧
    (∀ e, outcome = SpawnOutcome.spawnError e → jsOrS m.command "" ≠ "" →
      wsSends sid cwd m outcome =
        [ClientMsg.commandExecuted ("Command execution error: " ++ e),
         ClientMsg.commandExecuted ""]) := by
  unfold wsSends onWsMessage
  rw [if_neg (by rw [hmt]; simp), if_neg (by simp [herr]),
    if_neg (by rw [hmt]; simp), if_pos hmt]
  dsimp only
  by_cases hc : jsOrS m.command "" = ""
  · rw [if_pos hc]
    refine ⟨fun _ => rfl, ?_, ?_⟩
    · intro chunks _ hne; exact absurd hc hne
    · intro e _ hne; exact absurd hc hne
  · rw [if_neg hc]
    refine ⟨fun h => absurd h hc, ?_, ?_⟩
    · intro chunks ho _; subst ho; simp [actionSends, commandReplies]
    · intro e ho _; subst ho; simp [actionSends, commandReplies]

/-- Concrete witness input: an `execute_command` frame for `echo hi`. -/
def wExecMsg : ServerMsg := ⟨some "execute_command", none, some "echo hi"⟩

/-- C9 witness: `echo hi` whose process emits "hi\n" and exits gets the
single combined-output reply. -/
theorem execute_command_reply_per_outcome_witness :
    (wExecMsg.message_type = some "execute_command" ∧
      jsTruthyOpt wExecMsg.error = false) ∧
    ((jsOrS wExecMsg.command "" = "" →
        wsSends "s" "/p" wExecMsg (SpawnOutcome.exit ["hi\n"]) =
          [ClientMsg.commandExecuted ""]) ∧
      (∀ chunks, SpawnOutcome.exit ["hi\n"] = SpawnOutcome.exit chunks →
        jsOrS wExecMsg.command "" ≠ "" →
        wsSends "s" "/p" wExecMsg (SpawnOutcome.exit ["hi\n"]) =
          [ClientMsg.commandExecuted (String.join chunks)]) ∧
      (∀ e, SpawnOutcome.exit ["hi\n"] = SpawnOutcome.spawnError e →
        jsOrS wExecMsg.command "" ≠ "" →
        wsSends "s" "/p" wExecMsg (SpawnOutcome.exit ["hi\n"]) =
          [ClientMsg.commandExecuted ("Command execution error: " ++ e),
           ClientMsg.commandExecuted ""])) :=
  ⟨⟨by decide, by decide⟩,
   execute_command_reply_per_outcome "s" "/p" wExecMsg (SpawnOutcome.exit ["hi\n"])
     (by decide) (by decide)⟩

/-- C8 counterexample: with no bearer credential present the client still
opens the protocol connection (it only checks the token inside the `open`
callback, after connecting), refuting "never opens a protocol connection
without a bearer credential". -/
theorem connect_without_credential_counterexample :
    startGitOpsTrace none =
      [GitOpStep.connect, GitOpStep.action WsAction.logErr,
       GitOpStep.action WsAction.close] ∧
    GitOpStep.connect ∈ startGitOpsTrace none := by
  exact ⟨by decide, by decide⟩

/-- C8 amended: the client always opens the connection first, credential or
not; if the credential is absent at open time it sends nothing and closes,
otherwise the first (and only) message it sends at open is `authenticate`.
Message handling is not gated on `auth_success`: a pre-auth
`execute_command` frame is acted upon all the same. -/
theorem client_connects_then_authenticates (tok : String) (htok : tok ≠ "") :
    (∀ o : Option String, (startGitOpsTrace o).head? = some GitOpStep.connect) ∧
    startGitOpsTrace none =
      [GitOpStep.connect, GitOpStep.action WsAction.logErr,
       GitOpStep.action WsAction.close] ∧
    startGitOpsTrace (some tok) =
      [GitOpStep.connect,
       GitOpStep.action (WsAction.send (ClientMsg.authenticate tok))] ∧
    (∀ sid cwd cmd, cmd ≠ "" →
      onWsMessage sid cwd ⟨some "execute_command", none, some cmd⟩ =
        [WsAction.execute cmd cwd]) := by
  refine ⟨fun o => by cases o <;> rfl, by decide, ?_, ?_⟩
  · unfold startGitOpsTrace startGitOpsOpen
    dsimp only
    rw [if_neg htok]
    rfl
  · intro sid cwd cmd hcmd
    exact onWsMessage_execute sid cwd cmd hcmd

/-- C8 amended witness at the token "t". -/
theorem client_connects_then_authenticates_witness :
    (("t" : String) ≠ "") ∧
    ((∀ o : Option String, (startGitOpsTrace o).head? = some GitOpStep.connect) ∧
      startGitOpsTrace none =
        [GitOpStep.connect, GitOpStep.action WsAction.logErr,
         GitOpStep.action WsAction.close] ∧
      startGitOpsTrace (some "t") =
        [GitOpStep.connect,
         GitOpStep.action (WsAction.send (ClientMsg.authenticate "t"))] ∧
      (∀ sid cwd cmd, cmd ≠ "" →
        onWsMessage sid cwd ⟨some "execute_command", none, some cmd⟩ =
          [WsAction.execute cmd cwd])) :=
  ⟨by decide, client_connects_then_authenticates "t" (by decide)⟩

/-! ## Debounce traces (C1, C2) -/

/-- A session-starting user line (`{"cwd":"/p","message":{"role":"user",...}}`). -/
def userLine : SrcLine :=
  ⟨"u", some ⟨some "/p", some "user", "", .str "fix bug", false⟩⟩

/-- An assistant chunk for messageId "m1" with text `txt`. -/
def asstLine (txt : String) : SrcLine :=
  ⟨"a", some ⟨some "/p", some "assistant", "m1", .str txt, false⟩⟩

/-- A change event on file "f" with the given stat size and content. -/
def chunkEv (size : Nat) (ls : List SrcLine) : ChangeEvent :=
  ⟨"f", size, ls, []⟩

/-- The two-chunk debounce scenario of the spec: a session starts at t=0,
assistant chunks for one messageId arrive at t=1 and t=3 (2 s apart), and
the armed `setTimeout`s come due at t=11 and t=13. -/
def c1Trace (a b : String) : List (Nat × Event) :=
  [ (0, .change (chunkEv 10 [userLine])),
    (1, .change (chunkEv 20 [userLine, asstLine a])),
    (3, .change (chunkEv 30 [userLine, asstLine a, asstLine b])),
    (11, .timerFire 0),
    (13, .timerFire 1) ]

theorem jsTrim_u : jsTrim "u" = "u" := by decide

theorem jsTrim_a : jsTrim "a" = "a" := by decide

theorem replaceBS_p : replaceBS "/p" = "/p" := by decide

/-- C1 counterexample: for chunks "Hello" then " world" (2 s apart, then
silence), the single end-of-session report carries " world" — the last
chunk, not the concatenation "Hello world" — and goes out at t=11, 10 s
after the FIRST chunk (t=1) and only 8 s after the last chunk (t=3): the
second chunk deleted the pending entry without clearing its timer, so the
orphaned first timer finalizes the re-seeded entry. -/
theorem debounce_concat_counterexample :
    endConvos (run (initState []) (c1Trace "Hello" " world")).2 =
      [(11, Effect.endConvo "" " world" "/p")] ∧
    (" world" : String) ≠ "Hello world" ∧
    (3, Event.change (chunkEv 30 [userLine, asstLine "Hello", asstLine " world"]))
      ∈ c1Trace "Hello" " world" ∧
    11 - 3 ≠ 10 := by
  exact ⟨by decide, by decide, by decide, by decide⟩

set_option maxHeartbeats 4000000 in
/-- C1 amended: in the two-chunk debounce scenario the end-of-session
report is sent exactly once, but with the LAST chunk's text (each chunk
whose messageId is already pending cancels the pending entry outright and
re-seeds it with only the new text — nothing is concatenated), and it is
sent when the orphaned timer of the first chunk fires, 10 s after the
first chunk rather than 10 s after the last. -/
theorem debounce_reports_last_chunk_once (a b : String)
    (ha : a ≠ "") (hb : b ≠ "") :
    endConvos (run (initState []) (c1Trace a b)).2 =
      [(11, Effect.endConvo "" b "/p")] := by
  simp only [c1Trace, run, step, initState, handleChange, maybeScan, processBatch,
    processLine, deletePendingIfSeen, handleUserRecord, handleAssistantRecord,
    scheduleAssistantFinalize, finalizeAssistant, stopWatching, extractMessageText,
    promptOf, jsOrS, nonBlank, jsTrim_u, jsTrim_a, replaceBS_p, getNormalizedLines,
    alookup, aerase, aset, scanForNewFiles, endConvos, isEndConvo, userLine,
    asstLine, chunkEv, fsPrev, ha, hb]
  simp [ha, hb, alookup, aerase, aset, endConvos, isEndConvo, replaceBS_p]

/-- C1 witness: the amended statement at the spec's own example chunks. -/
theorem debounce_reports_last_chunk_once_witness :
    (("Hello" : String) ≠ "" ∧ (" world" : String) ≠ "") ∧
    endConvos (run (initState []) (c1Trace "Hello" " world")).2 =
      [(11, Effect.endConvo "" " world" "/p")] :=
  ⟨⟨by decide, by decide⟩,
   debounce_reports_last_chunk_once "Hello" " world" (by decide) (by decide)⟩

/-- A session starts at t=0, one assistant chunk arrives at t=1 (arming a
10 s timer), the watcher is stopped at t=2, and the timer comes due at
t=11. -/
def c2Trace : List (Nat × Event) :=
  [ (0, .change (chunkEv 10 [userLine])),
    (1, .change (chunkEv 20 [userLine, asstLine "Hello"])),
    (2, .stop),
    (11, .timerFire 0) ]

/-- C2 counterexample: the watcher is stopped at t=2, yet the debounce
timer armed at t=1 still fires at t=11 and sends the end-of-session
report — `stop-watching` never touches `pendingAssistantResponses` or its
timers, refuting "stopping the watcher cancels every pending debounce
timer ... never causes a SessionReporter.end call afterwards". -/
theorem stop_cancels_timers_counterexample :
    (2, Event.stop) ∈ c2Trace ∧
    endConvos (run (initState []) c2Trace).2 =
      [(11, Effect.endConvo "" "Hello" "/p")] ∧
    (2 : Nat) < 11 := by
  exact ⟨by decide, by decide, by decide⟩

/-- C2 amended: stopping the watcher closes the file watcher and resets
`sessionStarted`, `sessionId` and the pinned file, but it cancels NO
debounce timer and clears NO pending response: both survive the stop, so a
timer armed before the stop still fires and sends its report. -/
theorem stop_leaves_timers_armed (s : EngineState) :
    (stopWatching s).1.pending = s.pending ∧
    (stopWatching s).1.timers = s.timers ∧
    (stopWatching s).1.sessionStarted = false ∧
    (stopWatching s).1.sessionId = "" ∧
    (stopWatching s).1.activeFile = none ∧
    (stopWatching s).1.watcherActive = false ∧
    (stopWatching s).2 = [Effect.statusStopped] :=
  ⟨rfl, rfl, rfl, rfl, rfl, rfl, rfl⟩

end GitWatcher
